import Mathlib

/-!
# Verification of the iFlytek real-time transcription client

This file embeds the streaming-transcription core of the repository in Lean:

* the JSON payload walk `parseResultText` (src/services/iflytekRealtime.ts),
* the PCM framer `chunkPCMData` (utils/audio),
* the request signer's base-string construction `generateSignature`,
* the batch session event handlers of `streamIflytekRealtime`
  (WebSocket `onmessage` / `onerror` / `onclose`, the abort handler, the
  connect-timeout handler and the `cleanup` closure), and
* the live-capture variant `createLiveTranscriptionSession`'s message handler.

JavaScript's dynamically-typed JSON values are modeled by the inductive type
`JSValue`; `undefined` and `null` are identified as `JSValue.null` (the source
only distinguishes them through `??` / `?.` which treat both alike).  Numbers
are modeled as integers (segment indices are integral in the protocol).
-/

/-- A JSON-like JavaScript value, as produced by `JSON.parse`.
`undefined` and `null` are both modeled by `null`. -/
inductive JSValue where
  | null : JSValue
  | bool (b : Bool) : JSValue
  | num (n : Int) : JSValue
  | str (s : String) : JSValue
  | arr (elems : List JSValue) : JSValue
  | obj (fields : List (String × JSValue)) : JSValue

/-- Property access `v[k]` on a JavaScript value: field lookup on objects,
`undefined` (modeled as `null`) on everything else.  This models the optional
chains `payload?.cn?.st?.rt` etc.: accessing a property of a non-object
non-null value yields `undefined`, and `?.` on nullish yields `undefined`. -/
def jsGet (v : JSValue) (k : String) : JSValue :=
  match v with
  | .obj fields =>
      match fields.find? (fun kv => kv.fst == k) with
      | some kv => kv.snd
      | none => .null
  | _ => .null

/-- JavaScript truthiness (`Boolean(v)` / `if (v)`). -/
def jsTruthy (v : JSValue) : Bool :=
  match v with
  | .null => false
  | .bool b => b
  | .num n => !(n == 0)
  | .str s => !(s == "")
  | .arr _ => true
  | .obj _ => true

/-- Nullish coalescing `v ?? w`. -/
def jsNullish (v w : JSValue) : JSValue :=
  match v with
  | .null => w
  | _ => v

/-- Elements visited by the indexed loop
`for (let i = 0; i < xs.length; i++) xs[i]` over a JavaScript value:
array elements for an array, one-character strings for a string, and nothing
otherwise (`.length` of a number, boolean or plain payload object is
`undefined`, so the loop body never runs). -/
def jsElems (v : JSValue) : List JSValue :=
  match v with
  | .arr xs => xs
  | .str s => s.data.map (fun c => .str c.toString)
  | _ => []

/-- The candidate text extracted from one `cw` entry:
`typeof candidate?.w === 'string'` guards the push of `candidate.w`. -/
def candText (cand : JSValue) : Option String :=
  match jsGet cand "w" with
  | .str s => some s
  | _ => none

/-- All candidate strings pushed for one word position: the source loops over
the whole `word?.cw ?? []` list and pushes every candidate with a string `w`. -/
def wordTexts (w : JSValue) : List String :=
  (jsElems (jsGet w "cw")).filterMap candText

/-- Texts pushed for one `rt` segment (its `ws` word list). -/
def segTexts (seg : JSValue) : List String :=
  (jsElems (jsGet seg "ws")).flatMap wordTexts

/-- `parseResultText` from src/services/iflytekRealtime.ts: walk
`payload?.cn?.st?.rt`, then each segment's `ws`, then each word's `cw`,
pushing every candidate whose `w` is a string, and join with no separator. -/
def parseResultText (payload : JSValue) : String :=
  String.join ((jsElems (jsGet (jsGet (jsGet payload "cn") "st") "rt")).flatMap segTexts)

/-- Modelled from the spec: "the first candidate string at each word position
is taken verbatim" — at each word only the head of the `cw` list contributes. -/
def wordTextSpec (w : JSValue) : Option String :=
  (jsElems (jsGet w "cw")).head?.bind candText

/-- Modelled from the spec: result-text extraction that takes only the first
candidate at each word position, to be compared with `parseResultText`. -/
def parseResultTextSpec (payload : JSValue) : String :=
  String.join ((jsElems (jsGet (jsGet (jsGet payload "cn") "st") "rt")).flatMap
    (fun seg => (jsElems (jsGet seg "ws")).filterMap wordTextSpec))

/-- `chunkPCMData` from utils/audio: slice the buffer into consecutive chunks
of `chunkBytes` bytes, the last chunk possibly shorter.  The byte buffer is
modeled as a list.  (With `chunkBytes = 0` the source's `for` loop would never
advance `offset`; the model returns `[]` in that unreachable configuration so
that the definition is total — all claims assume a positive chunk size.) -/
def chunkPCMData (buffer : List α) (chunkBytes : Nat) : List (List α) :=
  if buffer.isEmpty then []
  else if chunkBytes = 0 then []
  else buffer.take chunkBytes :: chunkPCMData (buffer.drop chunkBytes) chunkBytes
termination_by buffer.length
decreasing_by
  simp only [List.length_drop]
  rename_i h1 h2
  have hb : buffer.length ≠ 0 := by
    simpa [List.isEmpty_iff_length_eq_zero] using h1
  omega

example : chunkPCMData [1, 2, 3, 4, 5] 2 = [[1, 2], [3, 4], [5]] := by
  simp [chunkPCMData]

/-! ## The Signer (`generateSignature`) -/

/-- Characters `encodeURIComponent` leaves unescaped:
`A–Z a–z 0–9 - _ . ! ~ * ' ( )`. -/
def isUriUnreserved (c : Char) : Bool :=
  c.isAlpha || c.isDigit || c == '-' || c == '_' || c == '.' || c == '!' ||
    c == '~' || c == '*' || c == Char.ofNat 39 || c == '(' || c == ')'

/-- Upper-case hexadecimal digit for a value below 16. -/
def hexDigit (n : Nat) : Char :=
  if n < 10 then Char.ofNat (48 + n) else Char.ofNat (55 + n)

/-- The UTF-8 bytes of a character (code points below `0x110000`). -/
def utf8Bytes (c : Char) : List Nat :=
  let n := c.toNat
  if n < 128 then [n]
  else if n < 2048 then [192 + n / 64, 128 + n % 64]
  else if n < 65536 then [224 + n / 4096, 128 + n / 64 % 64, 128 + n % 64]
  else [240 + n / 262144, 128 + n / 4096 % 64, 128 + n / 64 % 64, 128 + n % 64]

/-- `%XX` escape of one byte. -/
def percentByte (b : Nat) : String :=
  String.mk ['%', hexDigit (b / 16), hexDigit (b % 16)]

/-- Host builtin `encodeURIComponent`: unreserved characters survive verbatim,
every other character is replaced by the `%XX` escapes of its UTF-8 bytes. -/
def encodeURIComponent (s : String) : String :=
  String.join (s.data.map (fun c =>
    if isUriUnreserved c then c.toString
    else String.join ((utf8Bytes c).map percentByte)))

/-- `params[key]` for the string-to-string parameter record, modeled as an
insertion-ordered association list with unique keys (a JavaScript object). -/
def lookupStr (params : List (String × String)) (k : String) : String :=
  match params.find? (fun kv => kv.fst == k) with
  | some kv => kv.snd
  | none => ""

/-- The signature base string of `generateSignature`
(src/services/iflytekRealtime.ts): take every key except the reserved
`signature` key, sort them (`Array.prototype.sort`, code-unit order), render
each as `encodeURIComponent(key)=encodeURIComponent(params[key])` and join
the pairs with `&`. -/
def signatureBaseString (params : List (String × String)) : String :=
  String.intercalate "&"
    ((List.insertionSort (· ≤ ·) ((params.map Prod.fst).filter (fun k => k ≠ "signature"))).map
      (fun k => encodeURIComponent k ++ "=" ++ encodeURIComponent (lookupStr params k)))

/-! ## The Segment Aggregator -/

/-- `Map.set` on the segment map: a JavaScript `Map` updates an existing key
in place (keeping its position) and appends a fresh key at the end. -/
def mapSet (m : List (Int × String)) (k : Int) (v : String) : List (Int × String) :=
  match m with
  | [] => [(k, v)]
  | kv :: rest => if kv.fst = k then (k, v) :: rest else kv :: mapSet rest k v

/-- The aggregated transcript:
`Array.from(segments.entries()).sort((a, b) => a[0] - b[0]).map(([, v]) => v).join('')` —
entries sorted by segment index ascending, texts concatenated. -/
def aggregate (m : List (Int × String)) : String :=
  String.join ((List.insertionSort (fun a b => a.fst ≤ b.fst) m).map Prod.snd)

example : aggregate (mapSet (mapSet (mapSet [] 3 "b") 1 "a") 2 "c") = "acb" := by decide

/-! ## Connection parameters (`streamIflytekRealtime` setup vs. the
live-capture variant's `connectWebSocket`) -/

/-- The credential/configuration record (`ModelConfig` in src/types.ts);
only the fields the streaming session reads are modeled. -/
structure ModelConfig where
  appId : String
  accessKeyId : String
  accessKeySecret : String
  defaultLang : Option String
  audioEncode : Option String
  sampleRate : Option Int

/-- `config.audioEncode ?? 'pcm_s16le'`. -/
def effectiveAudioEncode (c : ModelConfig) : String :=
  c.audioEncode.getD "pcm_s16le"

/-- The wire parameter set built by `streamIflytekRealtime`
(src/services/iflytekRealtime.ts, before the signature is attached):
`samplerate` is added only when the effective encoding is `pcm_s16le`. -/
def streamSessionParams (c : ModelConfig) (sessionId utc : String) : List (String × String) :=
  [("accessKeyId", c.accessKeyId), ("appId", c.appId), ("uuid", sessionId), ("utc", utc),
   ("lang", c.defaultLang.getD "autodialect"), ("audio_encode", effectiveAudioEncode c)] ++
  (if effectiveAudioEncode c = "pcm_s16le"
   then [("samplerate", toString (c.sampleRate.getD 16000))] else [])

/-- The wire parameter set built by the live-capture variant's
`connectWebSocket`: `samplerate` is included unconditionally. -/
def liveSessionParams (c : ModelConfig) (sessionId utc : String) : List (String × String) :=
  [("accessKeyId", c.accessKeyId), ("appId", c.appId), ("uuid", sessionId), ("utc", utc),
   ("lang", c.defaultLang.getD "autodialect"), ("audio_encode", effectiveAudioEncode c),
   ("samplerate", toString (c.sampleRate.getD 16000))]

/-! ## The batch Transport Session (`streamIflytekRealtime`) as a state
machine

The mutable session state shared by the WebSocket handlers, the timers, the
abort handler and the audio loop is collected in `Session`; each event source
becomes one `Event` constructor and `step` is the translation of the
corresponding handler body.  Callback invocations (`onStatus` / `onUpdate` /
`onError`) are recorded in logs, the promise is the single-assignment cell
`settled` (a JavaScript promise ignores every settlement after the first),
and `ws.close()` is modeled by `wsCloseCall`, which counts only effective
closes (calling `close()` on a CLOSING/CLOSED socket is a no-op). -/

/-- WebSocket ready states. -/
inductive WsReadyState where
  | connecting
  | opened
  | closing
  | closedState
deriving DecidableEq

/-- Values of the batch session's `onStatus` callback. -/
inductive SessionStatus where
  | connecting
  | streaming
  | ended
deriving DecidableEq

/-- One `onUpdate` invocation (the `raw` field of the payload is omitted). -/
structure UpdateCall where
  text : String
  isFinal : Bool
  segmentId : Option Int
deriving DecidableEq

/-- The settlement of the session's result promise.  A rejection carries the
value from which the source builds its `Error` (the server-provided `desc`
or a fixed message). -/
inductive Settled where
  | resolved (text : String)
  | rejected (reason : JSValue)

/-- The shared mutable state of one `streamIflytekRealtime` session. -/
structure Session where
  closed : Bool
  streamStarted : Bool
  handshakeTimer : Bool
  wsReady : WsReadyState
  segments : List (Int × String)
  settled : Option Settled
  effectiveCloses : Nat
  statusCalls : List SessionStatus
  updateCalls : List UpdateCall
  errorCalls : List JSValue

/-- `resolvePromise(t)`: a promise settles only once; later calls are no-ops. -/
def settleResolve (s : Session) (t : String) : Session :=
  match s.settled with
  | some _ => s
  | none => { s with settled := some (.resolved t) }

/-- `rejectPromise(reason)`: no-op on an already-settled promise. -/
def settleReject (s : Session) (reason : JSValue) : Session :=
  match s.settled with
  | some _ => s
  | none => { s with settled := some (.rejected reason) }

/-- Record one `onError` invocation. -/
def pushError (s : Session) (m : JSValue) : Session :=
  { s with errorCalls := s.errorCalls ++ [m] }

/-- Record one `onStatus` invocation. -/
def pushStatus (s : Session) (st : SessionStatus) : Session :=
  { s with statusCalls := s.statusCalls ++ [st] }

/-- Record one `onUpdate` invocation. -/
def pushUpdate (s : Session) (u : UpdateCall) : Session :=
  { s with updateCalls := s.updateCalls ++ [u] }

/-- `ws.close()`: transitions a CONNECTING or OPEN socket to CLOSING (counted
as one effective close); a no-op on a socket that is already closing/closed. -/
def wsCloseCall (s : Session) : Session :=
  match s.wsReady with
  | .connecting => { s with wsReady := .closing, effectiveCloses := s.effectiveCloses + 1 }
  | .opened => { s with wsReady := .closing, effectiveCloses := s.effectiveCloses + 1 }
  | _ => s

/-- The `cleanup` closure: guarded by the `closed` flag; sets it, clears the
handshake timer and closes the socket. -/
def cleanupS (s : Session) : Session :=
  if s.closed then s
  else wsCloseCall { s with closed := true, handshakeTimer := false }

/-- `beginStreaming`: single-fire gate on `streamStarted`/`closed`; clears the
handshake timer and reports the `streaming` status (the audio loop it spawns
is observed through `Event.sendFailure`). -/
def beginStreaming (s : Session) : Session :=
  if s.streamStarted || s.closed then s
  else pushStatus { s with streamStarted := true, handshakeTimer := false } .streaming

/-- Strict string comparison `v === 'lit'`. -/
def jsEqStr (v : JSValue) (lit : String) : Bool :=
  match v with
  | .str t => t == lit
  | _ => false

/-- `data.desc ?? data.data?.desc ?? '服务返回错误'`. -/
def errDescOf (d : JSValue) : JSValue :=
  jsNullish (jsGet d "desc") (jsNullish (jsGet (jsGet d "data") "desc") (.str "服务返回错误"))

/-- `data?.data?.desc ?? '实时转写失败'`. -/
def frcDescOf (d : JSValue) : JSValue :=
  jsNullish (jsGet (jsGet d "data") "desc") (.str "实时转写失败")

/-- The `msg_type === 'result' && res_type === 'asr'` branch of the batch
`ws.onmessage` handler, applied to `data.data`. -/
def handleResult (dd : JSValue) (s : Session) : Session :=
  let text := parseResultText dd
  let isFinal := jsTruthy (jsGet dd "ls")
  match jsGet dd "seg_id" with
  | .num n =>
      let segs := mapSet s.segments n text
      let agg := aggregate segs
      let s1 := pushUpdate { s with segments := segs } ⟨agg, isFinal, some n⟩
      if isFinal then cleanupS (pushStatus (settleResolve s1 agg) .ended) else s1
  | _ =>
      let s1 := pushUpdate s ⟨text, isFinal, none⟩
      if isFinal then cleanupS (pushStatus (settleResolve s1 text) .ended) else s1

/-- The batch `ws.onmessage` handler for a successfully parsed JSON frame. -/
def handleMessage (d : JSValue) (s : Session) : Session :=
  if !s.streamStarted && (jsEqStr (jsGet d "action") "started" || jsEqStr (jsGet d "msg_type") "started") then
    beginStreaming s
  else if jsEqStr (jsGet d "action") "error" || jsEqStr (jsGet d "msg_type") "error" then
    cleanupS (settleReject (pushError s (errDescOf d)) (errDescOf d))
  else if jsEqStr (jsGet d "res_type") "frc" then
    cleanupS (settleReject (pushError s (frcDescOf d)) (frcDescOf d))
  else if jsEqStr (jsGet d "msg_type") "result" && jsEqStr (jsGet d "res_type") "asr" then
    handleResult (jsGet d "data") s
  else s

/-- The event sources that mutate the session state. -/
inductive Event where
  /-- `ws.onopen` (fires only on a CONNECTING socket): arms the 1.5 s
  handshake timer. -/
  | opened
  /-- A text frame whose `JSON.parse` succeeded. -/
  | message (data : JSValue)
  /-- A text frame whose `JSON.parse` threw (the catch block). -/
  | malformed
  /-- A non-string frame: ignored. -/
  | binaryData
  /-- The 1.5 s handshake timer fires. -/
  | handshakeFire
  /-- The 10 s connect timer fires. -/
  | connectTimeout
  /-- `ws.onerror`. -/
  | wsError
  /-- `ws.onclose` (the transport finished closing, locally or by the peer). -/
  | wsClose
  /-- The caller's cancellation signal (`abortHandler`). -/
  | abort
  /-- The audio-sending loop's catch block (only reachable once the loop was
  started by `beginStreaming`). -/
  | sendFailure (err : JSValue)

/-- One step of the batch session: the translation of each handler body in
src/services/iflytekRealtime.ts. -/
def step (e : Event) (s : Session) : Session :=
  match e with
  | .opened =>
      if s.wsReady = .connecting then { s with wsReady := .opened, handshakeTimer := true } else s
  | .message d => handleMessage d s
  | .malformed => pushError s (.str "无法解析服务端返回数据")
  | .binaryData => s
  | .handshakeFire => if s.handshakeTimer then beginStreaming s else s
  | .connectTimeout =>
      if s.wsReady = .connecting then
        settleReject (pushError (wsCloseCall s) (.str "连接超时")) (.str "连接超时")
      else s
  | .wsError =>
      cleanupS (settleReject (pushError s (.str "实时转写连接异常")) (.str "实时转写连接异常"))
  | .wsClose =>
      let s1 := { s with wsReady := .closedState }
      if s1.closed then s1 else pushStatus { s1 with closed := true } .ended
  | .abort => cleanupS (settleReject s (.str "操作已取消"))
  | .sendFailure err =>
      if s.streamStarted then cleanupS (settleReject (pushError s (.str "音频发送失败")) err) else s

/-- The session state right after setup (`onStatus?.('connecting')` already
reported, socket CONNECTING, nothing settled). -/
def initSession : Session :=
  { closed := false, streamStarted := false, handshakeTimer := false,
    wsReady := .connecting, segments := [], settled := none, effectiveCloses := 0,
    statusCalls := [.connecting], updateCalls := [], errorCalls := [] }

/-- Deliver a sequence of events to the session. -/
def runEvents (s : Session) (evs : List Event) : Session :=
  evs.foldl (fun s e => step e s) s

/-- A recognition-result frame carrying one segment with one word and a single
candidate text `t`, segment index `n` and finality flag `fin`. -/
def mkResultMsg (n : Int) (t : String) (fin : Bool) : JSValue :=
  .obj [("msg_type", .str "result"), ("res_type", .str "asr"),
        ("data", .obj [("seg_id", .num n), ("ls", .bool fin),
          ("cn", .obj [("st", .obj [("rt", .arr
            [.obj [("ws", .arr [.obj [("cw", .arr [.obj [("w", .str t)]])]])]])])])])]

/-- A server-reported error frame with description `m`. -/
def mkErrorMsg (m : String) : JSValue :=
  .obj [("action", .str "error"), ("desc", .str m)]

/-! ## The live-capture variant (`createLiveTranscriptionSession`)

Its `parseResultText` walks the same nesting but with `for...of` loops, which
throw a `TypeError` on a truthy non-iterable value (only arrays and strings
are iterable among JSON values); the throwing computation is modeled in
`Except`.  Its `ws.onmessage` handler keeps provisional text out of the
segment map and strips a leading run of sentence punctuation. -/

/-- `for...of` iteration: arrays and strings are iterable, every other
JavaScript value makes the loop head throw a `TypeError`. -/
def jsIterate (v : JSValue) : Option (List JSValue) :=
  match v with
  | .arr xs => some xs
  | .str s => some (s.data.map (fun c => .str c.toString))
  | _ => none

/-- The `cw` loop of the live `parseResultText`:
`for (const candidate of word?.cw ?? [])`. -/
def liveWordTexts (w : JSValue) : Except String (List String) :=
  match jsIterate (jsNullish (jsGet w "cw") (.arr [])) with
  | some cands => .ok (cands.filterMap candText)
  | none => .error "TypeError: value is not iterable"

/-- The `ws` loop of the live `parseResultText`. -/
def liveSegTexts (seg : JSValue) : Except String (List String) :=
  match jsIterate (jsNullish (jsGet seg "ws") (.arr [])) with
  | some words =>
      words.foldlM (fun acc w => do
        let ts ← liveWordTexts w
        pure (acc ++ ts)) []
  | none => .error "TypeError: value is not iterable"

/-- The live variant's `parseResultText` (for...of over
`payload?.cn?.st?.rt ?? []`): returns the concatenated candidate texts, or the
`TypeError` thrown when some level is a truthy non-iterable. -/
def parseResultTextLive (payload : JSValue) : Except String String :=
  match jsIterate (jsNullish (jsGet (jsGet (jsGet payload "cn") "st") "rt") (.arr [])) with
  | some segs => do
      let parts ← segs.foldlM (fun acc seg => do
        let ts ← liveSegTexts seg
        pure (acc ++ ts)) []
      pure (String.join parts)
  | none => .error "TypeError: value is not iterable"

/-- The punctuation class of the live handler's cleanup step
`text.replace(/^[。，、；：！？\.,;:!?]+/, '')`. -/
def isLeadingPunct (c : Char) : Bool :=
  c == '。' || c == '，' || c == '、' || c == '；' || c == '：' || c == '！' ||
    c == '？' || c == '.' || c == ',' || c == ';' || c == ':' || c == '!' || c == '?'

/-- Strip the single leading run of sentence punctuation (the regex replace
above). -/
def cleanLeadingPunct (t : String) : String :=
  String.mk (t.data.dropWhile isLeadingPunct)

/-- Values of the live session's `onStatus` callback. -/
inductive LiveStatus where
  | connecting
  | connected
  | streaming
  | ended
  | error
deriving DecidableEq

/-- The live session state mutated by its `ws.onmessage` handler. -/
structure LiveSession where
  isActive : Bool
  streamStarted : Bool
  segments : List (Int × String)
  statusCalls : List LiveStatus
  updateCalls : List UpdateCall
  errorCalls : List JSValue

/-- The live `cleanup`: deactivates the session and clears the segment map
(audio-graph and socket teardown have no observable state here). -/
def liveCleanup (s : LiveSession) : LiveSession :=
  { s with isActive := false, streamStarted := false, segments := [] }

/-- Record one live `onError` invocation. -/
def pushLiveError (s : LiveSession) (m : JSValue) : LiveSession :=
  { s with errorCalls := s.errorCalls ++ [m] }

/-- Record one live `onStatus` invocation. -/
def pushLiveStatus (s : LiveSession) (st : LiveStatus) : LiveSession :=
  { s with statusCalls := s.statusCalls ++ [st] }

/-- Record one live `onUpdate` invocation. -/
def pushLiveUpdate (s : LiveSession) (u : UpdateCall) : LiveSession :=
  { s with updateCalls := s.updateCalls ++ [u] }

/-- Truthy-or `v || w` of the live error-description extraction. -/
def jsOrTruthy (v w : JSValue) : JSValue :=
  if jsTruthy v then v else w

/-- Rendering of a value inside a template literal (used only for the
`(code: ...)` fallback message; composite values are approximated, no claim
depends on that branch). -/
def jsToDisplay (v : JSValue) : String :=
  match v with
  | .null => "undefined"
  | .bool b => if b then "true" else "false"
  | .num n => toString n
  | .str s => s
  | .arr _ => "[array]"
  | .obj _ => "[object Object]"

/-- `data.desc || data.data?.desc || ` the code-bearing fallback message. -/
def liveErrDescOf (d : JSValue) : JSValue :=
  jsOrTruthy (jsGet d "desc") (jsOrTruthy (jsGet (jsGet d "data") "desc")
    (.str ("服务返回错误 (code: " ++ jsToDisplay (jsGet d "code") ++ ")")))

/-- The ASR-result branch of the live `ws.onmessage` handler, applied to
`data.data`.  A parse `TypeError` propagates to the handler's catch block,
which only logs — the state is left unchanged. -/
def liveHandleResult (dd : JSValue) (s : LiveSession) : LiveSession :=
  match parseResultTextLive dd with
  | .error _ => s
  | .ok text =>
      let isFinal := jsTruthy (jsGet dd "ls")
      if text == "" then s
      else
        let cleaned := cleanLeadingPunct text
        match jsGet dd "seg_id" with
        | .num n =>
            if isFinal then
              let segs := mapSet s.segments n cleaned
              pushLiveUpdate { s with segments := segs } ⟨aggregate segs, isFinal, some n⟩
            else
              pushLiveUpdate s ⟨aggregate s.segments ++ cleaned, isFinal, some n⟩
        | _ => pushLiveUpdate s ⟨cleaned, isFinal, none⟩

/-- The live `ws.onmessage` handler for a parsed JSON frame. -/
def liveHandleMessage (d : JSValue) (s : LiveSession) : LiveSession :=
  if jsEqStr (jsGet d "action") "started" || jsEqStr (jsGet d "code") "0" ||
      jsEqStr (jsGet d "desc") "success" then
    pushLiveStatus { s with streamStarted := true } .streaming
  else if jsEqStr (jsGet d "action") "error" ||
      (jsTruthy (jsGet d "code") && !(jsEqStr (jsGet d "code") "0")) then
    liveCleanup (pushLiveError s (liveErrDescOf d))
  else if jsEqStr (jsGet d "msg_type") "result" && jsEqStr (jsGet d "res_type") "asr" then
    liveHandleResult (jsGet d "data") s
  else s

/-! ## Theorems about the Framer -/

theorem chunkPCMData_flatten {α : Type} :
    ∀ (buf : List α) (n : Nat), 0 < n → (chunkPCMData buf n).flatten = buf := by
  intro buf n
  induction buf, n using chunkPCMData.induct with
  | case1 buf n h =>
      intro _
      rw [List.isEmpty_iff] at h
      simp [chunkPCMData, h]
  | case2 buf h => omega
  | case3 buf n h h0 ih =>
      intro hn
      rw [chunkPCMData, if_neg h, if_neg h0]
      simp [ih hn]

theorem chunkPCMData_length {α : Type} :
    ∀ (buf : List α) (n : Nat), 0 < n →
      (chunkPCMData buf n).length = (buf.length + n - 1) / n := by
  intro buf n
  induction buf, n using chunkPCMData.induct with
  | case1 buf n h =>
      intro hn
      rw [List.isEmpty_iff] at h
      subst h
      simp [chunkPCMData, Nat.div_eq_of_lt (by omega : n - 1 < n)]
  | case2 buf h => omega
  | case3 buf n h h0 ih =>
      intro hn
      rw [chunkPCMData, if_neg h, if_neg h0]
      have hlen : buf.length ≠ 0 := by
        simpa [List.isEmpty_iff_length_eq_zero] using h
      have h1 : buf.length + n - 1 = (buf.length - 1) + n := by omega
      rcases le_or_lt buf.length n with hle | hlt
      · have hdrop : buf.drop n = [] := List.drop_eq_nil_of_le hle
        have h2 : buf.length - 1 < n := by omega
        rw [hdrop, h1, Nat.add_div_right _ hn, Nat.div_eq_of_lt h2]
        simp [chunkPCMData]
      · rw [List.length_cons, ih hn, List.length_drop]
        have e1 : buf.length - n + n - 1 = (buf.length - 1 - n) + n := by omega
        have e2 : buf.length + n - 1 = ((buf.length - 1 - n) + n) + n := by omega
        rw [e1, e2, Nat.add_div_right _ hn, Nat.add_div_right _ hn, Nat.add_div_right _ hn]

theorem chunkPCMData_mem_length_le {α : Type} :
    ∀ (buf : List α) (n : Nat), ∀ c ∈ chunkPCMData buf n, c.length ≤ n := by
  intro buf n
  induction buf, n using chunkPCMData.induct with
  | case1 buf n h => simp [chunkPCMData, h]
  | case2 buf h => simp [chunkPCMData]
  | case3 buf n h h0 ih =>
      rw [chunkPCMData, if_neg h, if_neg h0]
      intro c hc
      rcases List.mem_cons.mp hc with hc | hc
      · subst hc; exact List.length_take_le n buf
      · exact ih c hc

theorem chunkPCMData_dropLast_length {α : Type} :
    ∀ (buf : List α) (n : Nat), ∀ c ∈ (chunkPCMData buf n).dropLast, c.length = n := by
  intro buf n
  induction buf, n using chunkPCMData.induct with
  | case1 buf n h => simp [chunkPCMData, h]
  | case2 buf h => simp [chunkPCMData]
  | case3 buf n h h0 ih =>
      rw [chunkPCMData, if_neg h, if_neg h0]
      intro c hc
      rcases hrest : chunkPCMData (buf.drop n) n with _ | ⟨r, rs⟩
      · rw [hrest] at hc
        simp at hc
      · rw [hrest, List.dropLast_cons_of_ne_nil (by simp)] at hc
        rcases List.mem_cons.mp hc with hc | hc
        · subst hc
          have hd : buf.drop n ≠ [] := by
            intro hdrop
            rw [chunkPCMData, hdrop] at hrest
            simp at hrest
          have hlt : n < buf.length := by
            have hpos := List.length_pos.mpr hd
            rw [List.length_drop] at hpos
            omega
          exact List.length_take_of_le (by omega)
        · exact ih c (by rw [hrest]; exact hc)

/-- C4: for every byte buffer and positive chunk size, `chunkPCMData` yields
chunks whose in-order concatenation reproduces the buffer exactly, whose
count is `ceil(length / chunkSize)` (written `(length + size - 1) / size` in
natural division), where every chunk except possibly the last has exactly the
chunk size and no chunk exceeds it. -/
theorem claim_C4_chunking {α : Type} (buffer : List α) (chunkBytes : Nat)
    (h : 0 < chunkBytes) :
    (chunkPCMData buffer chunkBytes).flatten = buffer ∧
    (chunkPCMData buffer chunkBytes).length = (buffer.length + chunkBytes - 1) / chunkBytes ∧
    (∀ c ∈ (chunkPCMData buffer chunkBytes).dropLast, c.length = chunkBytes) ∧
    (∀ c ∈ chunkPCMData buffer chunkBytes, c.length ≤ chunkBytes) :=
  ⟨chunkPCMData_flatten buffer chunkBytes h, chunkPCMData_length buffer chunkBytes h,
   chunkPCMData_dropLast_length buffer chunkBytes, chunkPCMData_mem_length_le buffer chunkBytes⟩

/-- Witness for C4 at a five-byte buffer and chunk size two. -/
theorem claim_C4_chunking_witness :
    (chunkPCMData [0, 1, 2, 3, 4] 2).flatten = [0, 1, 2, 3, 4] ∧
    (chunkPCMData [0, 1, 2, 3, 4] 2).length = (([0, 1, 2, 3, 4] : List Nat).length + 2 - 1) / 2 ∧
    (∀ c ∈ (chunkPCMData [0, 1, 2, 3, 4] 2).dropLast, c.length = 2) ∧
    (∀ c ∈ chunkPCMData ([0, 1, 2, 3, 4] : List Nat) 2, c.length ≤ 2) :=
  claim_C4_chunking [0, 1, 2, 3, 4] 2 (by decide)

/-! ## Theorems about result-text extraction -/

/-- A payload whose single word carries two candidates. -/
def twoCandPayload : JSValue :=
  .obj [("cn", .obj [("st", .obj [("rt", .arr
    [.obj [("ws", .arr [.obj [("cw", .arr
      [.obj [("w", .str "a")], .obj [("w", .str "b")]])]])]])])])]

/-- Counterexample to C3: on a word with candidate strings `a` and `b`, the
source's `parseResultText` concatenates *all* candidates (yielding `ab`),
whereas the claimed first-candidate-only walk yields `a`. -/
theorem claim_C3_counterexample :
    parseResultText twoCandPayload = "ab" ∧
    parseResultTextSpec twoCandPayload = "a" ∧
    parseResultText twoCandPayload ≠ parseResultTextSpec twoCandPayload :=
  ⟨rfl, rfl, by decide⟩

theorem wordTexts_of_le_one (w : JSValue)
    (hw : (jsElems (jsGet w "cw")).length ≤ 1) :
    wordTexts w = (wordTextSpec w).toList := by
  unfold wordTexts wordTextSpec
  rcases hcw : jsElems (jsGet w "cw") with _ | ⟨c, rest⟩
  · simp
  · have hrest : rest = [] := by
      rw [hcw] at hw
      simpa using hw
    subst hrest
    simp only [List.filterMap_cons, List.head?_cons, Option.bind_some]
    rcases hc : candText c <;> simp [hc]

theorem flatMap_wordTexts_of_le_one (l : List JSValue)
    (h : ∀ w ∈ l, (jsElems (jsGet w "cw")).length ≤ 1) :
    l.flatMap wordTexts = l.filterMap wordTextSpec := by
  induction l with
  | nil => rfl
  | cons w rest ih =>
      rw [List.flatMap_cons, List.filterMap_cons,
        wordTexts_of_le_one w (h w (List.mem_cons_self w rest)),
        ih (fun x hx => h x (List.mem_cons_of_mem w hx))]
      cases wordTextSpec w <;> simp

/-- C3 amended: `parseResultText` concatenates, in document order, *every*
candidate whose `w` field is a string; the claimed first-candidate walk
coincides with it exactly when every word position carries at most one
candidate. -/
theorem claim_C3_amended (payload : JSValue)
    (h : ∀ seg ∈ jsElems (jsGet (jsGet (jsGet payload "cn") "st") "rt"),
         ∀ w ∈ jsElems (jsGet seg "ws"), (jsElems (jsGet w "cw")).length ≤ 1) :
    parseResultText payload = parseResultTextSpec payload := by
  unfold parseResultText parseResultTextSpec
  congr 1
  have : ∀ l : List JSValue,
      (∀ seg ∈ l, ∀ w ∈ jsElems (jsGet seg "ws"), (jsElems (jsGet w "cw")).length ≤ 1) →
      l.flatMap segTexts = l.flatMap (fun seg => (jsElems (jsGet seg "ws")).filterMap wordTextSpec) := by
    intro l
    induction l with
    | nil => intro _; rfl
    | cons seg rest ih =>
        intro hl
        rw [List.flatMap_cons, List.flatMap_cons,
          ih (fun x hx => hl x (List.mem_cons_of_mem seg hx))]
        unfold segTexts
        rw [flatMap_wordTexts_of_le_one _ (hl seg (List.mem_cons_self seg rest))]
  exact this _ h

/-- A payload with two words, one candidate each. -/
def oneCandPayload : JSValue :=
  .obj [("cn", .obj [("st", .obj [("rt", .arr
    [.obj [("ws", .arr
      [.obj [("cw", .arr [.obj [("w", .str "你")]])],
       .obj [("cw", .arr [.obj [("w", .str "好")]])]])]])])])]

/-- Witness for the amended C3 at a two-word single-candidate payload. -/
theorem claim_C3_amended_witness :
    parseResultText oneCandPayload = parseResultTextSpec oneCandPayload :=
  claim_C3_amended oneCandPayload (by decide)

/-! ## Theorems about the Signer -/

theorem lookupStr_eq_of_mem (params : List (String × String)) (k v : String)
    (hnd : (params.map Prod.fst).Nodup) (hmem : (k, v) ∈ params) :
    lookupStr params k = v := by
  induction params with
  | nil => cases hmem
  | cons kv rest ih =>
      rcases List.mem_cons.mp hmem with heq | hmem'
      · unfold lookupStr
        rw [← heq]
        simp [List.find?_cons]
      · have hk : k ∈ rest.map Prod.fst :=
          List.mem_map.mpr ⟨(k, v), hmem', rfl⟩
        have hne : kv.fst ≠ k := by
          intro hkk
          exact (List.nodup_cons.mp (by simpa using hnd)).1 (hkk ▸ hk)
        have hb : (kv.fst == k) = false := beq_eq_false_iff_ne.mpr hne
        unfold lookupStr
        rw [List.find?_cons, hb]
        show lookupStr rest k = v
        exact ih (List.nodup_cons.mp (by simpa using hnd)).2 hmem'

theorem lookupStr_append_signature (params : List (String × String)) (k v : String)
    (hk : k ≠ "signature") :
    lookupStr (params ++ [("signature", v)]) k = lookupStr params k := by
  induction params with
  | nil => simp [lookupStr, List.find?_cons, Ne.symm hk]
  | cons kv rest ih =>
      unfold lookupStr at *
      rw [List.cons_append, List.find?_cons, List.find?_cons]
      rcases h : kv.fst == k
      · simpa [h] using ih
      · simp [h]

/-- The sorted key list of the base string is determined by the key *set*:
permuted parameter records give the very same sorted keys. -/
theorem sortedKeys_perm_eq (p1 p2 : List (String × String)) (hperm : p1.Perm p2) :
    List.insertionSort (· ≤ ·) ((p1.map Prod.fst).filter (fun k => k ≠ "signature")) =
    List.insertionSort (· ≤ ·) ((p2.map Prod.fst).filter (fun k => k ≠ "signature")) := by
  haveI : IsAntisymm String (· ≤ ·) := instIsAntisymmLe
  refine List.eq_of_perm_of_sorted (r := (· ≤ ·)) ?_ ?_ ?_
  · exact (List.perm_insertionSort _ _).trans
      (((hperm.map Prod.fst).filter _).trans (List.perm_insertionSort _ _).symm)
  · exact List.sorted_insertionSort _ _
  · exact List.sorted_insertionSort _ _

/-- C5: the Signer's base string is built from all keys except the reserved
`signature` key, sorted, with key and value percent-encoded and joined as
`key=value` with `&`; two parameter records with the same key/value pairs in
different insertion orders produce the same base string, hence the same
signature under any (deterministic) keyed-hash-plus-base64 function, and an
attached `signature` entry is ignored by the base string. -/
theorem claim_C5_signature_canonical (p1 p2 : List (String × String)) (secret : String)
    (hperm : p1.Perm p2) (hnd : (p1.map Prod.fst).Nodup) :
    signatureBaseString p1 = signatureBaseString p2 ∧
    (∀ hmacSha1Base64 : String → String → String,
      hmacSha1Base64 secret (signatureBaseString p1) =
        hmacSha1Base64 secret (signatureBaseString p2)) ∧
    (∀ v : String, signatureBaseString (p1 ++ [("signature", v)]) = signatureBaseString p1) := by
  have hnd2 : (p2.map Prod.fst).Nodup := ((hperm.map Prod.fst).nodup_iff).mp hnd
  have hbase : signatureBaseString p1 = signatureBaseString p2 := by
    unfold signatureBaseString
    rw [sortedKeys_perm_eq p1 p2 hperm]
    congr 1
    apply List.map_congr_left
    intro k hk
    have hk1 : k ∈ p2.map Prod.fst := by
      have := (List.perm_insertionSort (· ≤ ·) _).mem_iff.mp hk
      exact List.mem_of_mem_filter this
    rcases List.mem_map.mp hk1 with ⟨kv, hkv, hfst⟩
    have hmem2 : (k, kv.snd) ∈ p2 := by
      rw [← hfst]; exact hkv
    have hmem1 : (k, kv.snd) ∈ p1 := hperm.symm.subset hmem2
    rw [lookupStr_eq_of_mem p1 k kv.snd hnd hmem1,
      lookupStr_eq_of_mem p2 k kv.snd hnd2 hmem2]
  refine ⟨hbase, fun f => by rw [hbase], fun v => ?_⟩
  unfold signatureBaseString
  have hkeys : ((p1 ++ [("signature", v)]).map Prod.fst).filter (fun k => k ≠ "signature") =
      (p1.map Prod.fst).filter (fun k => k ≠ "signature") := by
    simp [List.filter_append]
  rw [hkeys]
  congr 1
  apply List.map_congr_left
  intro k hk
  have hkne : k ≠ "signature" := by
    have := (List.perm_insertionSort (· ≤ ·) _).mem_iff.mp hk
    have := List.of_mem_filter this
    simpa using this
  rw [lookupStr_append_signature p1 k v hkne]

/-- Witness for C5: two insertion orders of the same two parameters. -/
theorem claim_C5_signature_canonical_witness :
    signatureBaseString [("lang", "cn"), ("appId", "x")] =
      signatureBaseString [("appId", "x"), ("lang", "cn")] :=
  (claim_C5_signature_canonical [("lang", "cn"), ("appId", "x")]
    [("appId", "x"), ("lang", "cn")] "secret" (by decide) (by decide)).1

/-! ## Theorems about the Segment Aggregator -/

/-- `parseResultText` recovers the candidate text of a single-candidate
result frame. -/
theorem parseResultText_mkResultMsg (n : Int) (t : String) (fin : Bool) :
    parseResultText (jsGet (mkResultMsg n t fin) "data") = t := rfl

/-- The key list of `Map.set`: unchanged when the key is present, else the
key is appended. -/
theorem mapSet_map_fst (k : Int) (v : String) :
    ∀ m : List (Int × String), (mapSet m k v).map Prod.fst =
      if k ∈ m.map Prod.fst then m.map Prod.fst else m.map Prod.fst ++ [k] := by
  intro m
  induction m with
  | nil => simp [mapSet]
  | cons kv rest ih =>
      unfold mapSet
      by_cases h : kv.fst = k
      · rw [if_pos h, if_pos (by rw [List.map_cons, h]; exact List.mem_cons_self _ _)]
        simp [List.map_cons, h]
      · rw [if_neg h, List.map_cons, List.map_cons, ih]
        by_cases h2 : k ∈ rest.map Prod.fst
        · rw [if_pos h2, if_pos (by simp [h2])]
        · rw [if_neg h2, if_neg (by simp [Ne.symm h, h2]), List.cons_append]

/-- `Map.set` keeps segment keys duplicate-free. -/
theorem mapSet_keys_nodup (m : List (Int × String)) (k : Int) (v : String)
    (hnd : (m.map Prod.fst).Nodup) : ((mapSet m k v).map Prod.fst).Nodup := by
  rw [mapSet_map_fst]
  by_cases h : k ∈ m.map Prod.fst
  · rw [if_pos h]; exact hnd
  · rw [if_neg h]; simp [List.nodup_append, hnd, h]

/-- The aggregated transcript depends only on the *contents* of the segment
map, not on insertion order, as long as segment keys are unique. -/
theorem aggregate_perm (m1 m2 : List (Int × String)) (hp : m1.Perm m2)
    (hnd : (m1.map Prod.fst).Nodup) : aggregate m1 = aggregate m2 := by
  haveI hTot : IsTotal (Int × String) (fun a b => a.fst ≤ b.fst) :=
    ⟨fun a b => le_total a.fst b.fst⟩
  haveI hTrans : IsTrans (Int × String) (fun a b => a.fst ≤ b.fst) :=
    ⟨fun a b c h1 h2 => le_trans h1 h2⟩
  haveI hAsym : IsAntisymm (Int × String) (fun a b => a.fst < b.fst) :=
    ⟨fun a b h1 h2 => absurd h2 (not_lt.mpr (le_of_lt h1))⟩
  have hstrict : ∀ l : List (Int × String),
      l.Pairwise (fun a b => a.fst ≤ b.fst) → (l.map Prod.fst).Nodup →
      l.Pairwise (fun a b => a.fst < b.fst) := by
    intro l hs hn
    have hne : l.Pairwise (fun a b => a.fst ≠ b.fst) := List.pairwise_map.mp hn
    exact (hs.and hne).imp (fun h => lt_of_le_of_ne h.1 h.2)
  have hnd2 : (m2.map Prod.fst).Nodup := ((hp.map Prod.fst).nodup_iff).mp hnd
  have hn1 : ((List.insertionSort (fun a b => a.fst ≤ b.fst) m1).map Prod.fst).Nodup :=
    (((List.perm_insertionSort _ m1).map Prod.fst).nodup_iff).mpr hnd
  have hn2 : ((List.insertionSort (fun a b => a.fst ≤ b.fst) m2).map Prod.fst).Nodup :=
    (((List.perm_insertionSort _ m2).map Prod.fst).nodup_iff).mpr hnd2
  have hsorteq : List.insertionSort (fun a b : Int × String => a.fst ≤ b.fst) m1 =
      List.insertionSort (fun a b : Int × String => a.fst ≤ b.fst) m2 := by
    refine List.eq_of_perm_of_sorted (r := fun a b => a.fst < b.fst) ?_ ?_ ?_
    · exact (List.perm_insertionSort _ m1).trans (hp.trans (List.perm_insertionSort _ m2).symm)
    · exact hstrict _ (List.sorted_insertionSort _ m1) hn1
    · exact hstrict _ (List.sorted_insertionSort _ m2) hn2
  unfold aggregate
  rw [hsorteq]

/-- On a recognition-result frame, the batch `onmessage` handler reduces to
its ASR-result branch. -/
theorem step_mkResultMsg (s : Session) (n : Int) (t : String) (fin : Bool) :
    step (.message (mkResultMsg n t fin)) s =
      handleResult (jsGet (mkResultMsg n t fin) "data") s := by
  rcases s with ⟨c, ss, ht, wr, seg, stl, ec, sc, uc, erc⟩
  cases ss <;> rfl

/-- Counterexample to C1's concrete instance: final results for indices
3, 1, 2 with texts `b`, `a`, `c` aggregate — sorted by index ascending
(1 ↦ `a`, 2 ↦ `c`, 3 ↦ `b`) — to `acb`, not to the claimed `abc` (and also
not to the arrival-order `bac`). -/
theorem claim_C1_counterexample :
    (runEvents initSession
        [.message (mkResultMsg 3 "b" true), .message (mkResultMsg 1 "a" true),
         .message (mkResultMsg 2 "c" true)]).segments = [(3, "b"), (1, "a"), (2, "c")] ∧
    ((runEvents initSession
        [.message (mkResultMsg 3 "b" true), .message (mkResultMsg 1 "a" true),
         .message (mkResultMsg 2 "c" true)]).updateCalls.map
      (fun u => u.text)).getLast? = some "acb" ∧
    ("acb" : String) ≠ "abc" ∧ ("acb" : String) ≠ "bac" := by
  refine ⟨rfl, rfl, by decide, by decide⟩

/-- C1 amended: after each indexed result the batch handler stores the text
under its segment index and reports (and, on a final result with an
unsettled promise, resolves with) the concatenation of the stored texts in
ascending index order; that aggregate is independent of arrival order for
duplicate-free indices; the claim's concrete instance `3 ↦ b, 1 ↦ a, 2 ↦ c`
aggregates to `acb` (not the claimed `abc`). -/
theorem claim_C1_amended :
    (∀ (s : Session) (n : Int) (t : String) (fin : Bool),
      (step (.message (mkResultMsg n t fin)) s).segments = mapSet s.segments n t ∧
      (step (.message (mkResultMsg n t fin)) s).updateCalls =
        s.updateCalls ++ [⟨aggregate (mapSet s.segments n t), fin, some n⟩] ∧
      (fin = true → s.settled = none →
        (step (.message (mkResultMsg n t fin)) s).settled =
          some (.resolved (aggregate (mapSet s.segments n t))))) ∧
    (∀ m1 m2 : List (Int × String), m1.Perm m2 → (m1.map Prod.fst).Nodup →
      aggregate m1 = aggregate m2) ∧
    aggregate (mapSet (mapSet (mapSet [] 3 "b") 1 "a") 2 "c") = "acb" := by
  refine ⟨?_, aggregate_perm, by decide⟩
  intro s n t fin
  rw [step_mkResultMsg]
  rcases s with ⟨c, ss, ht, wr, seg, stl, ec, sc, uc, erc⟩
  cases fin with
  | false => exact ⟨rfl, rfl, fun h _ => by cases h⟩
  | true =>
      refine ⟨?_, ?_, fun _ hs => ?_⟩ <;>
        cases stl <;> cases c <;> cases wr <;>
          first
            | rfl
            | (cases hs)

/-- Witness for the amended C1: two provisional results then a final one for
index 2; the session resolves with the index-sorted aggregate `acb`, and two
arrival orders of the same pairs aggregate identically. -/
theorem claim_C1_amended_witness :
    (step (.message (mkResultMsg 2 "c" true))
        (runEvents initSession
          [.message (mkResultMsg 3 "b" false), .message (mkResultMsg 1 "a" false)])).settled =
      some (.resolved "acb") ∧
    aggregate [(3, "b"), (1, "a")] = aggregate [(1, "a"), (3, "b")] := by
  constructor
  · have h := (claim_C1_amended.1
      (runEvents initSession
        [.message (mkResultMsg 3 "b" false), .message (mkResultMsg 1 "a" false)]) 2 "c" true).2.2
      rfl rfl
    exact h.trans rfl
  · exact claim_C1_amended.2.1 [(3, "b"), (1, "a")] [(1, "a"), (3, "b")] (by decide) (by decide)

/-- Counterexample to C2: in the batch handler a *provisional* indexed result
(`ls` false, `seg_id` 0) writes its text into the permanent segment map. -/
theorem claim_C2_counterexample :
    initSession.segments = [] ∧
    (step (.message (mkResultMsg 0 "x" false)) initSession).segments = [(0, "x")] :=
  ⟨rfl, rfl⟩

/-- On a recognition-result frame, the live `onmessage` handler reduces to
its ASR-result branch. -/
theorem liveHandleMessage_result (s : LiveSession) (n : Int) (t : String) (fin : Bool) :
    liveHandleMessage (mkResultMsg n t fin) s =
      liveHandleResult (jsGet (mkResultMsg n t fin) "data") s := rfl

/-- Characterization of the live ASR-result branch on a single-candidate
frame: empty text is dropped, a final result writes the cleaned text into the
map and reports the index-sorted aggregate, a provisional result leaves the
map alone and reports the finalized aggregate followed by the cleaned
provisional text. -/
theorem liveHandleResult_mkResult (s : LiveSession) (n : Int) (t : String) (fin : Bool) :
    liveHandleResult (jsGet (mkResultMsg n t fin) "data") s =
      if t = "" then s
      else if fin then
        pushLiveUpdate { s with segments := mapSet s.segments n (cleanLeadingPunct t) }
          ⟨aggregate (mapSet s.segments n (cleanLeadingPunct t)), fin, some n⟩
      else pushLiveUpdate s ⟨aggregate s.segments ++ cleanLeadingPunct t, fin, some n⟩ := by
  unfold liveHandleResult
  rw [show parseResultTextLive (jsGet (mkResultMsg n t fin) "data") = .ok t from rfl,
    show jsGet (jsGet (mkResultMsg n t fin) "data") "seg_id" = .num n from rfl,
    show jsTruthy (jsGet (jsGet (mkResultMsg n t fin) "data") "ls") = fin from rfl]
  by_cases h : t = ""
  · simp [h]
  · cases fin <;> simp [h]

/-- C2 amended: in the *live* session a provisional indexed result leaves the
segment map unchanged and (for nonempty text) emits a display-only update —
the finalized segments in ascending index order followed by the cleaned
provisional text — while a final result writes the cleaned text into the map;
in the *batch* session every indexed result, provisional or final, writes its
text into the segment map. -/
theorem claim_C2_amended :
    (∀ (s : LiveSession) (n : Int) (t : String),
      (liveHandleMessage (mkResultMsg n t false) s).segments = s.segments ∧
      (t ≠ "" →
        (liveHandleMessage (mkResultMsg n t false) s).updateCalls =
          s.updateCalls ++ [⟨aggregate s.segments ++ cleanLeadingPunct t, false, some n⟩])) ∧
    (∀ (s : LiveSession) (n : Int) (t : String), t ≠ "" →
      (liveHandleMessage (mkResultMsg n t true) s).segments =
        mapSet s.segments n (cleanLeadingPunct t)) ∧
    (∀ (s : Session) (n : Int) (t : String) (fin : Bool),
      (step (.message (mkResultMsg n t fin)) s).segments = mapSet s.segments n t) := by
  refine ⟨fun s n t => ?_, fun s n t ht => ?_, fun s n t fin => ?_⟩
  · rw [liveHandleMessage_result, liveHandleResult_mkResult]
    by_cases h : t = ""
    · simp [h]
    · simp only [if_neg h, if_neg (Bool.false_ne_true)]
      exact ⟨rfl, fun _ => rfl⟩
  · rw [liveHandleMessage_result, liveHandleResult_mkResult, if_neg ht]
    rfl
  · rw [step_mkResultMsg]
    rcases s with ⟨c, ss, ht, wr, seg, stl, ec, sc, uc, erc⟩
    cases fin <;> cases stl <;> cases c <;> cases wr <;> rfl

/-- The live session state right after `start` (active, map cleared). -/
def liveInitSession : LiveSession :=
  { isActive := true, streamStarted := true, segments := [],
    statusCalls := [], updateCalls := [], errorCalls := [] }

/-- Witness for the amended C2: a provisional result with text `。hi` on the
fresh live session leaves the map empty and shows the cleaned display text. -/
theorem claim_C2_amended_witness :
    (liveHandleMessage (mkResultMsg 5 "。hi" false) liveInitSession).segments =
      liveInitSession.segments ∧
    (liveHandleMessage (mkResultMsg 5 "。hi" false) liveInitSession).updateCalls =
      liveInitSession.updateCalls ++
        [⟨aggregate liveInitSession.segments ++ cleanLeadingPunct "。hi", false, some 5⟩] :=
  ⟨(claim_C2_amended.1 liveInitSession 5 "。hi").1,
   (claim_C2_amended.1 liveInitSession 5 "。hi").2 (by decide)⟩

/-! ## Teardown infrastructure: how each state operation affects the
connection, the settlement cell and the callback logs -/

theorem pushError_wsReady (s : Session) (m : JSValue) : (pushError s m).wsReady = s.wsReady := rfl

theorem pushError_closes (s : Session) (m : JSValue) :
    (pushError s m).effectiveCloses = s.effectiveCloses := rfl

theorem pushError_settled (s : Session) (m : JSValue) : (pushError s m).settled = s.settled := rfl

theorem settleReject_wsReady (s : Session) (r : JSValue) :
    (settleReject s r).wsReady = s.wsReady := by
  unfold settleReject; cases s.settled <;> rfl

theorem settleReject_closes (s : Session) (r : JSValue) :
    (settleReject s r).effectiveCloses = s.effectiveCloses := by
  unfold settleReject; cases s.settled <;> rfl

theorem settleReject_closed (s : Session) (r : JSValue) :
    (settleReject s r).closed = s.closed := by
  unfold settleReject; cases s.settled <;> rfl

theorem settleReject_settled_some (s : Session) (r : JSValue) (v : Settled)
    (h : s.settled = some v) : (settleReject s r).settled = some v := by
  unfold settleReject; rw [h]; exact h

theorem settleReject_settled_none (s : Session) (r : JSValue)
    (h : s.settled = none) : (settleReject s r).settled = some (.rejected r) := by
  unfold settleReject; rw [h]

theorem settleResolve_wsReady (s : Session) (t : String) :
    (settleResolve s t).wsReady = s.wsReady := by
  unfold settleResolve; cases s.settled <;> rfl

theorem settleResolve_closes (s : Session) (t : String) :
    (settleResolve s t).effectiveCloses = s.effectiveCloses := by
  unfold settleResolve; cases s.settled <;> rfl

theorem settleResolve_settled_some (s : Session) (t : String) (v : Settled)
    (h : s.settled = some v) : (settleResolve s t).settled = some v := by
  unfold settleResolve; rw [h]; exact h

theorem wsCloseCall_settled (s : Session) : (wsCloseCall s).settled = s.settled := by
  unfold wsCloseCall; cases s.wsReady <;> rfl

theorem wsCloseCall_closed (s : Session) : (wsCloseCall s).closed = s.closed := by
  unfold wsCloseCall; cases s.wsReady <;> rfl

theorem cleanupS_settled (s : Session) : (cleanupS s).settled = s.settled := by
  unfold cleanupS
  split
  · rfl
  · rw [wsCloseCall_settled]

theorem cleanupS_closed (s : Session) : (cleanupS s).closed = true := by
  unfold cleanupS
  split
  · assumption
  · rw [wsCloseCall_closed]

theorem beginStreaming_wsReady (s : Session) : (beginStreaming s).wsReady = s.wsReady := by
  unfold beginStreaming; split <;> rfl

theorem beginStreaming_closes (s : Session) :
    (beginStreaming s).effectiveCloses = s.effectiveCloses := by
  unfold beginStreaming; split <;> rfl

theorem beginStreaming_settled (s : Session) : (beginStreaming s).settled = s.settled := by
  unfold beginStreaming; split <;> rfl

/-- The invariant behind "the connection is closed at most once": the close
counter never exceeds one, and is still zero while the socket is CONNECTING
or OPEN. -/
def closeInv (s : Session) : Prop :=
  s.effectiveCloses ≤ 1 ∧
    ((s.wsReady = .connecting ∨ s.wsReady = .opened) → s.effectiveCloses = 0)

theorem wsCloseCall_closeInv (s : Session) (h : closeInv s) : closeInv (wsCloseCall s) := by
  obtain ⟨h1, h2⟩ := h
  unfold wsCloseCall
  cases hw : s.wsReady with
  | connecting =>
      refine ⟨by rw [h2 (Or.inl hw)], fun hc => ?_⟩
      simp at hc
  | opened =>
      refine ⟨by rw [h2 (Or.inr hw)], fun hc => ?_⟩
      simp at hc
  | closing => exact ⟨h1, fun hc => h2 hc⟩
  | closedState => exact ⟨h1, fun hc => h2 hc⟩

theorem closeInv_of_fields (s s' : Session) (hw : s'.wsReady = s.wsReady)
    (hc : s'.effectiveCloses = s.effectiveCloses) (h : closeInv s) : closeInv s' := by
  obtain ⟨h1, h2⟩ := h
  exact ⟨by rw [hc]; exact h1, fun hx => by rw [hc]; exact h2 (by rw [← hw]; exact hx)⟩

theorem cleanupS_closeInv (s : Session) (h : closeInv s) : closeInv (cleanupS s) := by
  unfold cleanupS
  split
  · exact h
  · exact wsCloseCall_closeInv _ (closeInv_of_fields s _ rfl rfl h)

theorem handleResult_closeInv (dd : JSValue) (s : Session) (h : closeInv s) :
    closeInv (handleResult dd s) := by
  unfold handleResult
  dsimp only
  split <;> split
  · exact cleanupS_closeInv _ (closeInv_of_fields s _
      ((settleResolve_wsReady _ _).trans rfl) ((settleResolve_closes _ _).trans rfl) h)
  · exact closeInv_of_fields s _ rfl rfl h
  · exact cleanupS_closeInv _ (closeInv_of_fields s _
      ((settleResolve_wsReady _ _).trans rfl) ((settleResolve_closes _ _).trans rfl) h)
  · exact closeInv_of_fields s _ rfl rfl h

theorem handleMessage_closeInv (d : JSValue) (s : Session) (h : closeInv s) :
    closeInv (handleMessage d s) := by
  unfold handleMessage
  split
  · exact closeInv_of_fields s _ (beginStreaming_wsReady s) (beginStreaming_closes s) h
  · split
    · refine cleanupS_closeInv _ (closeInv_of_fields s _ ?_ ?_ h)
      · rw [settleReject_wsReady, pushError_wsReady]
      · rw [settleReject_closes, pushError_closes]
    · split
      · refine cleanupS_closeInv _ (closeInv_of_fields s _ ?_ ?_ h)
        · rw [settleReject_wsReady, pushError_wsReady]
        · rw [settleReject_closes, pushError_closes]
      · split
        · exact handleResult_closeInv _ s h
        · exact h

theorem step_closeInv (e : Event) (s : Session) (h : closeInv s) : closeInv (step e s) := by
  cases e with
  | opened =>
      show closeInv (if s.wsReady = WsReadyState.connecting then
        { s with wsReady := WsReadyState.opened, handshakeTimer := true } else s)
      by_cases hw : s.wsReady = WsReadyState.connecting
      · rw [if_pos hw]
        obtain ⟨h1, h2⟩ := h
        exact ⟨h1, fun _ => h2 (Or.inl hw)⟩
      · rw [if_neg hw]
        exact h
  | message d => exact handleMessage_closeInv d s h
  | malformed => exact closeInv_of_fields s _ rfl rfl h
  | binaryData => exact h
  | handshakeFire =>
      show closeInv (if s.handshakeTimer = true then beginStreaming s else s)
      split
      · exact closeInv_of_fields s _ (beginStreaming_wsReady s) (beginStreaming_closes s) h
      · exact h
  | connectTimeout =>
      show closeInv (if s.wsReady = WsReadyState.connecting then
        settleReject (pushError (wsCloseCall s) (.str "连接超时")) (.str "连接超时") else s)
      split
      · refine closeInv_of_fields _ _ ?_ ?_ (wsCloseCall_closeInv s h)
        · rw [settleReject_wsReady, pushError_wsReady]
        · rw [settleReject_closes, pushError_closes]
      · exact h
  | wsError =>
      refine cleanupS_closeInv _ (closeInv_of_fields s _ ?_ ?_ h)
      · rw [settleReject_wsReady, pushError_wsReady]
      · rw [settleReject_closes, pushError_closes]
  | wsClose =>
      show closeInv (if s.closed = true then ({ s with wsReady := WsReadyState.closedState } : Session)
        else pushStatus { s with wsReady := WsReadyState.closedState, closed := true } SessionStatus.ended)
      obtain ⟨h1, h2⟩ := h
      split
      · exact ⟨h1, by intro hx; simp at hx⟩
      · exact ⟨h1, by intro hx; simp [pushStatus] at hx⟩
  | abort =>
      refine cleanupS_closeInv _ (closeInv_of_fields s _ ?_ ?_ h)
      · rw [settleReject_wsReady]
      · rw [settleReject_closes]
  | sendFailure err =>
      show closeInv (if s.streamStarted = true then
        cleanupS (settleReject (pushError s (.str "音频发送失败")) err) else s)
      split
      · refine cleanupS_closeInv _ (closeInv_of_fields s _ ?_ ?_ h)
        · rw [settleReject_wsReady, pushError_wsReady]
        · rw [settleReject_closes, pushError_closes]
      · exact h

theorem runEvents_closeInv (evs : List Event) (s : Session) (h : closeInv s) :
    closeInv (runEvents s evs) := by
  induction evs generalizing s with
  | nil => exact h
  | cons e rest ih => exact ih (step e s) (step_closeInv e s h)

/-- Once settled, the outcome never changes: every later event keeps the
first settlement (the promise cell is single-assignment). -/
theorem step_settled_some (e : Event) (s : Session) (v : Settled)
    (h : s.settled = some v) : (step e s).settled = some v := by
  cases e with
  | opened =>
      show (if s.wsReady = WsReadyState.connecting then
        ({ s with wsReady := WsReadyState.opened, handshakeTimer := true } : Session) else s).settled = some v
      split <;> exact h
  | message d =>
      show (handleMessage d s).settled = some v
      unfold handleMessage
      split
      · rw [beginStreaming_settled]; exact h
      · split
        · rw [cleanupS_settled, settleReject_settled_some _ _ v (by rw [pushError_settled]; exact h)]
        · split
          · rw [cleanupS_settled, settleReject_settled_some _ _ v (by rw [pushError_settled]; exact h)]
          · split
            · unfold handleResult
              dsimp only
              split
              · split
                · rw [cleanupS_settled]
                  exact settleResolve_settled_some _ _ v h
                · exact h
              · split
                · rw [cleanupS_settled]
                  exact settleResolve_settled_some _ _ v h
                · exact h
            · exact h
  | malformed => exact h
  | binaryData => exact h
  | handshakeFire =>
      show (if s.handshakeTimer = true then beginStreaming s else s).settled = some v
      split
      · rw [beginStreaming_settled]; exact h
      · exact h
  | connectTimeout =>
      show (if s.wsReady = WsReadyState.connecting then
        settleReject (pushError (wsCloseCall s) (.str "连接超时")) (.str "连接超时") else s).settled = some v
      split
      · rw [settleReject_settled_some _ _ v (by rw [pushError_settled, wsCloseCall_settled]; exact h)]
      · exact h
  | wsError =>
      rw [show step Event.wsError s = cleanupS (settleReject (pushError s (.str "实时转写连接异常")) (.str "实时转写连接异常")) from rfl,
        cleanupS_settled, settleReject_settled_some _ _ v (by rw [pushError_settled]; exact h)]
  | wsClose =>
      show (if s.closed = true then ({ s with wsReady := WsReadyState.closedState } : Session)
        else pushStatus { s with wsReady := WsReadyState.closedState, closed := true } SessionStatus.ended).settled = some v
      split <;> exact h
  | abort =>
      rw [show step Event.abort s = cleanupS (settleReject s (.str "操作已取消")) from rfl,
        cleanupS_settled, settleReject_settled_some _ _ v h]
  | sendFailure err =>
      show (if s.streamStarted = true then
        cleanupS (settleReject (pushError s (.str "音频发送失败")) err) else s).settled = some v
      split
      · rw [cleanupS_settled, settleReject_settled_some _ _ v (by rw [pushError_settled]; exact h)]
      · exact h

/-- The `cleanup` closure is idempotent. -/
theorem cleanupS_idem (s : Session) : cleanupS (cleanupS s) = cleanupS s := by
  have h := cleanupS_closed s
  generalize hx : cleanupS s = x at h ⊢
  unfold cleanupS
  rw [if_pos h]

/-- Counterexample to C6: a peer connection close — one of the claim's listed
teardown triggers — tears the session down (sets the `closed` flag and
reports the `ended` status) but settles the outcome *zero* times, not
"exactly once": the result promise is left pending forever. -/
theorem claim_C6_counterexample :
    (runEvents initSession [Event.opened, Event.wsClose]).closed = true ∧
    (runEvents initSession [Event.opened, Event.wsClose]).statusCalls =
      [SessionStatus.connecting, SessionStatus.ended] ∧
    (runEvents initSession [Event.opened, Event.wsClose]).settled = none :=
  ⟨rfl, rfl, rfl⟩

/-- C6 amended: over every event interleaving the connection is effectively
closed at most once; a settled outcome is never overwritten (the first
settling trigger wins and later triggers are no-ops on the outcome); and the
`cleanup` closure is idempotent.  (A teardown consisting only of a peer close
settles the outcome zero times, so "at most once" replaces "exactly once".) -/
theorem claim_C6_amended :
    (∀ evs : List Event, (runEvents initSession evs).effectiveCloses ≤ 1) ∧
    (∀ (e : Event) (s : Session) (v : Settled),
      s.settled = some v → (step e s).settled = some v) ∧
    (∀ s : Session, cleanupS (cleanupS s) = cleanupS s) := by
  refine ⟨fun evs => ?_, step_settled_some, cleanupS_idem⟩
  exact (runEvents_closeInv evs initSession ⟨by decide, fun _ => rfl⟩).1

theorem wsCloseCall_errorCalls (s : Session) : (wsCloseCall s).errorCalls = s.errorCalls := by
  unfold wsCloseCall; cases s.wsReady <;> rfl

theorem cleanupS_errorCalls (s : Session) : (cleanupS s).errorCalls = s.errorCalls := by
  unfold cleanupS
  split
  · rfl
  · rw [wsCloseCall_errorCalls]

theorem settleReject_errorCalls (s : Session) (r : JSValue) :
    (settleReject s r).errorCalls = s.errorCalls := by
  unfold settleReject; cases s.settled <;> rfl

/-- On a server-reported error frame, the batch `onmessage` handler reduces
to its error branch: `onError`, reject, cleanup. -/
theorem step_mkErrorMsg (s : Session) (m : String) :
    step (.message (mkErrorMsg m)) s =
      cleanupS (settleReject (pushError s (.str m)) (.str m)) := by
  rcases s with ⟨c, ss, ht, wr, seg, stl, ec, sc, uc, erc⟩
  cases ss <;> rfl

/-- Witness for the amended C6: a transport error followed by a cancellation —
the connection closes once, the cancellation does not overwrite the error
rejection, and a double cleanup equals a single one. -/
theorem claim_C6_amended_witness :
    (runEvents initSession [Event.wsError, Event.abort]).effectiveCloses ≤ 1 ∧
    (step Event.abort (step Event.wsError initSession)).settled =
      some (.rejected (.str "实时转写连接异常")) ∧
    cleanupS (cleanupS initSession) = cleanupS initSession :=
  ⟨claim_C6_amended.1 [Event.wsError, Event.abort],
   claim_C6_amended.2.1 Event.abort (step Event.wsError initSession)
     (.rejected (.str "实时转写连接异常")) rfl,
   claim_C6_amended.2.2 initSession⟩

/-- Counterexample to C7: (a) a cancellation — one of the claim's failure
sources — rejects the outcome and closes the session with *zero* `onError`
invocations, not "exactly one"; (b) a server error followed by a transport
error invokes `onError` *twice* — the handlers carry no `closed`-flag guard
on the callback, so invocations do duplicate across failure sources. -/
theorem claim_C7_counterexample :
    ((step Event.abort initSession).settled = some (.rejected (.str "操作已取消")) ∧
      (step Event.abort initSession).closed = true ∧
      (step Event.abort initSession).errorCalls = []) ∧
    (runEvents initSession [.message (mkErrorMsg "boom"), Event.wsError]).errorCalls =
      [.str "boom", .str "实时转写连接异常"] :=
  ⟨⟨rfl, rfl, rfl⟩, rfl⟩

/-- C7 amended: from an unsettled session each single failure source
rejects the outcome with a descriptive reason and closes the connection;
server errors, transport errors, connect timeouts and audio-send failures
each invoke `onError` exactly once *per firing* (so several sources firing
produce several invocations), while a cancellation invokes it zero times;
when several sources fire, the first rejection wins (per the single-
assignment outcome of the amended C6). -/
theorem claim_C7_amended (s : Session) (hs : s.settled = none) :
    (∀ m : String,
      (step (.message (mkErrorMsg m)) s).errorCalls = s.errorCalls ++ [.str m] ∧
      (step (.message (mkErrorMsg m)) s).settled = some (.rejected (.str m)) ∧
      (step (.message (mkErrorMsg m)) s).closed = true) ∧
    ((step Event.wsError s).errorCalls = s.errorCalls ++ [.str "实时转写连接异常"] ∧
      (step Event.wsError s).settled = some (.rejected (.str "实时转写连接异常")) ∧
      (step Event.wsError s).closed = true) ∧
    (∀ err : JSValue, s.streamStarted = true →
      (step (.sendFailure err) s).errorCalls = s.errorCalls ++ [.str "音频发送失败"] ∧
      (step (.sendFailure err) s).settled = some (.rejected err) ∧
      (step (.sendFailure err) s).closed = true) ∧
    (s.wsReady = WsReadyState.connecting →
      (step Event.connectTimeout s).errorCalls = s.errorCalls ++ [.str "连接超时"] ∧
      (step Event.connectTimeout s).settled = some (.rejected (.str "连接超时")) ∧
      (step Event.connectTimeout s).wsReady = WsReadyState.closing) ∧
    ((step Event.abort s).errorCalls = s.errorCalls ∧
      (step Event.abort s).settled = some (.rejected (.str "操作已取消")) ∧
      (step Event.abort s).closed = true) := by
  refine ⟨fun m => ?_, ?_, fun err hss => ?_, fun hw => ?_, ?_⟩
  · rw [step_mkErrorMsg]
    refine ⟨?_, ?_, cleanupS_closed _⟩
    · rw [cleanupS_errorCalls, settleReject_errorCalls]
      rfl
    · rw [cleanupS_settled]
      exact settleReject_settled_none _ _ (by rw [pushError_settled]; exact hs)
  · rw [show step Event.wsError s =
      cleanupS (settleReject (pushError s (.str "实时转写连接异常")) (.str "实时转写连接异常")) from rfl]
    refine ⟨?_, ?_, cleanupS_closed _⟩
    · rw [cleanupS_errorCalls, settleReject_errorCalls]
      rfl
    · rw [cleanupS_settled]
      exact settleReject_settled_none _ _ (by rw [pushError_settled]; exact hs)
  · rw [show step (.sendFailure err) s = (if s.streamStarted = true then
      cleanupS (settleReject (pushError s (.str "音频发送失败")) err) else s) from rfl, if_pos hss]
    refine ⟨?_, ?_, cleanupS_closed _⟩
    · rw [cleanupS_errorCalls, settleReject_errorCalls]
      rfl
    · rw [cleanupS_settled]
      exact settleReject_settled_none _ _ (by rw [pushError_settled]; exact hs)
  · rw [show step Event.connectTimeout s = (if s.wsReady = WsReadyState.connecting then
      settleReject (pushError (wsCloseCall s) (.str "连接超时")) (.str "连接超时") else s) from rfl,
      if_pos hw]
    refine ⟨?_, ?_, ?_⟩
    · rw [settleReject_errorCalls]
      show (wsCloseCall s).errorCalls ++ [.str "连接超时"] = _
      rw [wsCloseCall_errorCalls]
    · exact settleReject_settled_none _ _
        (by rw [pushError_settled, wsCloseCall_settled]; exact hs)
    · rw [settleReject_wsReady, pushError_wsReady]
      unfold wsCloseCall
      rw [hw]
  · rw [show step Event.abort s = cleanupS (settleReject s (.str "操作已取消")) from rfl]
    refine ⟨?_, ?_, cleanupS_closed _⟩
    · rw [cleanupS_errorCalls, settleReject_errorCalls]
    · rw [cleanupS_settled]
      exact settleReject_settled_none _ _ hs

/-- Witness for the amended C7 at the fresh session: a server error frame
with message `boom`, and a cancellation. -/
theorem claim_C7_amended_witness :
    ((step (.message (mkErrorMsg "boom")) initSession).errorCalls =
        initSession.errorCalls ++ [.str "boom"] ∧
      (step (.message (mkErrorMsg "boom")) initSession).settled =
        some (.rejected (.str "boom")) ∧
      (step (.message (mkErrorMsg "boom")) initSession).closed = true) ∧
    ((step Event.abort initSession).errorCalls = initSession.errorCalls ∧
      (step Event.abort initSession).settled = some (.rejected (.str "操作已取消")) ∧
      (step Event.abort initSession).closed = true) :=
  ⟨(claim_C7_amended initSession rfl).1 "boom",
   (claim_C7_amended initSession rfl).2.2.2.2⟩

/-- Everything the environment and the caller can observe of a session state
except the `onError` log. -/
def obs (s : Session) :
    Bool × Bool × Bool × WsReadyState × List (Int × String) × Option Settled ×
      Nat × List SessionStatus × List UpdateCall :=
  (s.closed, s.streamStarted, s.handshakeTimer, s.wsReady, s.segments, s.settled,
   s.effectiveCloses, s.statusCalls, s.updateCalls)

/-- A session state with its `onError` log replaced. -/
def withErr (s : Session) (x : List JSValue) : Session :=
  { s with errorCalls := x }

theorem withErr_streamStarted (s : Session) (x : List JSValue) :
    (withErr s x).streamStarted = s.streamStarted := rfl

theorem withErr_handshakeTimer (s : Session) (x : List JSValue) :
    (withErr s x).handshakeTimer = s.handshakeTimer := rfl

theorem withErr_wsReady (s : Session) (x : List JSValue) :
    (withErr s x).wsReady = s.wsReady := rfl

theorem withErr_closed (s : Session) (x : List JSValue) :
    (withErr s x).closed = s.closed := rfl

theorem withErr_segments (s : Session) (x : List JSValue) :
    (withErr s x).segments = s.segments := rfl

theorem obs_withErr (s : Session) (x : List JSValue) : obs (withErr s x) = obs s := rfl

theorem settleResolve_withErr (s : Session) (x : List JSValue) (t : String) :
    settleResolve (withErr s x) t = withErr (settleResolve s t) x := by
  unfold settleResolve withErr
  dsimp only
  cases hb : s.settled <;> simp [hb]

theorem settleReject_withErr (s : Session) (x : List JSValue) (r : JSValue) :
    settleReject (withErr s x) r = withErr (settleReject s r) x := by
  unfold settleReject withErr
  dsimp only
  cases hb : s.settled <;> simp [hb]

theorem pushStatus_withErr (s : Session) (x : List JSValue) (st : SessionStatus) :
    pushStatus (withErr s x) st = withErr (pushStatus s st) x := rfl

theorem wsCloseCall_withErr (s : Session) (x : List JSValue) :
    wsCloseCall (withErr s x) = withErr (wsCloseCall s) x := by
  unfold wsCloseCall withErr
  dsimp only
  cases hb : s.wsReady <;> simp [hb]

theorem cleanupS_withErr (s : Session) (x : List JSValue) :
    cleanupS (withErr s x) = withErr (cleanupS s) x := by
  unfold cleanupS
  simp only [withErr_closed]
  by_cases h : s.closed = true
  · rw [if_pos h, if_pos h]
  · rw [if_neg h, if_neg h]
    exact wsCloseCall_withErr { s with closed := true, handshakeTimer := false } x

theorem beginStreaming_withErr (s : Session) (x : List JSValue) :
    beginStreaming (withErr s x) = withErr (beginStreaming s) x := by
  unfold beginStreaming
  simp only [withErr_streamStarted, withErr_closed]
  by_cases h : (s.streamStarted || s.closed) = true
  · rw [if_pos h, if_pos h]
  · rw [if_neg h, if_neg h]
    rfl

theorem finalize_withErr (y : Session) (x : List JSValue) (agg : String) :
    cleanupS (pushStatus (settleResolve (withErr y x) agg) SessionStatus.ended) =
      withErr (cleanupS (pushStatus (settleResolve y agg) SessionStatus.ended)) x := by
  rw [settleResolve_withErr, pushStatus_withErr, cleanupS_withErr]

theorem rejectClean_withErr (y : Session) (x : List JSValue) (r : JSValue) :
    cleanupS (settleReject (withErr y x) r) = withErr (cleanupS (settleReject y r)) x := by
  rw [settleReject_withErr, cleanupS_withErr]

theorem rejectErrClean_withErr (y : Session) (x : List JSValue) (r1 r2 : JSValue) :
    cleanupS (settleReject (pushError (withErr y x) r1) r2) =
      withErr (cleanupS (settleReject (pushError y r1) r2)) (x ++ [r1]) := by
  rw [show pushError (withErr y x) r1 = withErr (pushError y r1) (x ++ [r1]) from rfl]
  exact rejectClean_withErr (pushError y r1) (x ++ [r1]) r2

/-- `handleResult` never reads the `onError` log. -/
theorem handleResult_errIrrel (dd : JSValue) (s : Session) (x : List JSValue) :
    ∃ y, handleResult dd (withErr s x) = withErr (handleResult dd s) y := by
  unfold handleResult
  simp only [withErr_segments]
  split
  · rename_i n heq
    split
    · exact ⟨x, finalize_withErr
        (pushUpdate { s with segments := mapSet s.segments n (parseResultText dd) }
          ⟨aggregate (mapSet s.segments n (parseResultText dd)),
           jsTruthy (jsGet dd "ls"), some n⟩) x
        (aggregate (mapSet s.segments n (parseResultText dd)))⟩
    · exact ⟨x, rfl⟩
  · split
    · exact ⟨x, finalize_withErr
        (pushUpdate s ⟨parseResultText dd, jsTruthy (jsGet dd "ls"), none⟩) x
        (parseResultText dd)⟩
    · exact ⟨x, rfl⟩

/-- `handleMessage` never reads the `onError` log. -/
theorem handleMessage_errIrrel (d : JSValue) (s : Session) (x : List JSValue) :
    ∃ y, handleMessage d (withErr s x) = withErr (handleMessage d s) y := by
  unfold handleMessage
  simp only [withErr_streamStarted]
  split_ifs
  · exact ⟨x, beginStreaming_withErr s x⟩
  · exact ⟨x ++ [errDescOf d], rejectErrClean_withErr s x (errDescOf d) (errDescOf d)⟩
  · exact ⟨x ++ [frcDescOf d], rejectErrClean_withErr s x (frcDescOf d) (frcDescOf d)⟩
  · exact handleResult_errIrrel (jsGet d "data") s x
  · exact ⟨x, rfl⟩

/-- `step` never reads the `onError` log: two states that differ only in that
log evolve to states that again differ only in that log. -/
theorem step_errIrrel (e : Event) (s : Session) (x : List JSValue) :
    ∃ y, step e (withErr s x) = withErr (step e s) y := by
  cases e with
  | opened =>
      refine ⟨x, ?_⟩
      show (if (withErr s x).wsReady = WsReadyState.connecting then
          ({ withErr s x with wsReady := WsReadyState.opened, handshakeTimer := true } : Session)
          else withErr s x) =
        withErr (if s.wsReady = WsReadyState.connecting then
          ({ s with wsReady := WsReadyState.opened, handshakeTimer := true } : Session) else s) x
      simp only [withErr_wsReady]
      by_cases h : s.wsReady = WsReadyState.connecting
      · rw [if_pos h, if_pos h]
        rfl
      · rw [if_neg h, if_neg h]
  | message d => exact handleMessage_errIrrel d s x
  | malformed =>
      refine ⟨x ++ [JSValue.str "无法解析服务端返回数据"], ?_⟩
      show pushError (withErr s x) (JSValue.str "无法解析服务端返回数据") =
        withErr (pushError s (JSValue.str "无法解析服务端返回数据"))
          (x ++ [JSValue.str "无法解析服务端返回数据"])
      rfl
  | binaryData => exact ⟨x, rfl⟩
  | handshakeFire =>
      refine ⟨x, ?_⟩
      show (if (withErr s x).handshakeTimer = true then beginStreaming (withErr s x)
          else withErr s x) =
        withErr (if s.handshakeTimer = true then beginStreaming s else s) x
      simp only [withErr_handshakeTimer]
      by_cases h : s.handshakeTimer = true
      · rw [if_pos h, if_pos h]
        exact beginStreaming_withErr s x
      · rw [if_neg h, if_neg h]
  | connectTimeout =>
      by_cases h : s.wsReady = WsReadyState.connecting
      · refine ⟨x ++ [JSValue.str "连接超时"], ?_⟩
        show (if (withErr s x).wsReady = WsReadyState.connecting then
            settleReject (pushError (wsCloseCall (withErr s x)) (JSValue.str "连接超时"))
              (JSValue.str "连接超时")
            else withErr s x) =
          withErr (if s.wsReady = WsReadyState.connecting then
            settleReject (pushError (wsCloseCall s) (JSValue.str "连接超时"))
              (JSValue.str "连接超时") else s) (x ++ [JSValue.str "连接超时"])
        simp only [withErr_wsReady]
        rw [if_pos h, if_pos h, wsCloseCall_withErr,
          show pushError (withErr (wsCloseCall s) x) (JSValue.str "连接超时") =
            withErr (pushError (wsCloseCall s) (JSValue.str "连接超时"))
              (x ++ [JSValue.str "连接超时"]) from rfl,
          settleReject_withErr]
      · refine ⟨x, ?_⟩
        show (if (withErr s x).wsReady = WsReadyState.connecting then
            settleReject (pushError (wsCloseCall (withErr s x)) (JSValue.str "连接超时"))
              (JSValue.str "连接超时")
            else withErr s x) =
          withErr (if s.wsReady = WsReadyState.connecting then
            settleReject (pushError (wsCloseCall s) (JSValue.str "连接超时"))
              (JSValue.str "连接超时") else s) x
        simp only [withErr_wsReady]
        rw [if_neg h, if_neg h]
  | wsError =>
      refine ⟨x ++ [JSValue.str "实时转写连接异常"], ?_⟩
      show cleanupS (settleReject (pushError (withErr s x) (JSValue.str "实时转写连接异常"))
          (JSValue.str "实时转写连接异常")) =
        withErr (cleanupS (settleReject (pushError s (JSValue.str "实时转写连接异常"))
          (JSValue.str "实时转写连接异常"))) (x ++ [JSValue.str "实时转写连接异常"])
      exact rejectErrClean_withErr s x (JSValue.str "实时转写连接异常") (JSValue.str "实时转写连接异常")
  | wsClose =>
      refine ⟨x, ?_⟩
      show (if (withErr s x).closed = true then
          ({ withErr s x with wsReady := WsReadyState.closedState } : Session)
          else pushStatus { withErr s x with wsReady := WsReadyState.closedState, closed := true }
            SessionStatus.ended) =
        withErr (if s.closed = true then ({ s with wsReady := WsReadyState.closedState } : Session)
          else pushStatus { s with wsReady := WsReadyState.closedState, closed := true }
            SessionStatus.ended) x
      simp only [withErr_closed]
      by_cases h : s.closed = true
      · rw [if_pos h, if_pos h]
        rfl
      · rw [if_neg h, if_neg h]
        rfl
  | abort =>
      refine ⟨x, ?_⟩
      show cleanupS (settleReject (withErr s x) (JSValue.str "操作已取消")) =
        withErr (cleanupS (settleReject s (JSValue.str "操作已取消"))) x
      exact rejectClean_withErr s x (JSValue.str "操作已取消")
  | sendFailure err =>
      by_cases h : s.streamStarted = true
      · refine ⟨x ++ [JSValue.str "音频发送失败"], ?_⟩
        show (if (withErr s x).streamStarted = true then
            cleanupS (settleReject (pushError (withErr s x) (JSValue.str "音频发送失败")) err)
            else withErr s x) =
          withErr (if s.streamStarted = true then
            cleanupS (settleReject (pushError s (JSValue.str "音频发送失败")) err) else s)
            (x ++ [JSValue.str "音频发送失败"])
        simp only [withErr_streamStarted]
        rw [if_pos h, if_pos h]
        exact rejectErrClean_withErr s x (JSValue.str "音频发送失败") err
      · refine ⟨x, ?_⟩
        show (if (withErr s x).streamStarted = true then
            cleanupS (settleReject (pushError (withErr s x) (JSValue.str "音频发送失败")) err)
            else withErr s x) =
          withErr (if s.streamStarted = true then
            cleanupS (settleReject (pushError s (JSValue.str "音频发送失败")) err) else s) x
        simp only [withErr_streamStarted]
        rw [if_neg h, if_neg h]

theorem claim_C8_malformed (s : Session) :
    (step .malformed s).segments = s.segments ∧
    (step .malformed s).settled = s.settled ∧
    (step .malformed s).closed = s.closed ∧
    (step .malformed s).wsReady = s.wsReady ∧
    (step .malformed s).effectiveCloses = s.effectiveCloses ∧
    (step .malformed s).statusCalls = s.statusCalls ∧
    (step .malformed s).updateCalls = s.updateCalls ∧
    (step .malformed s).errorCalls = s.errorCalls ++ [.str "无法解析服务端返回数据"] ∧
    (∀ e : Event, obs (step e (step .malformed s)) = obs (step e s)) := by
  refine ⟨rfl, rfl, rfl, rfl, rfl, rfl, rfl, rfl, fun e => ?_⟩
  obtain ⟨y, hy⟩ :=
    step_errIrrel e s (s.errorCalls ++ [.str "无法解析服务端返回数据"])
  rw [show step Event.malformed s =
      withErr s (s.errorCalls ++ [.str "无法解析服务端返回数据"]) from rfl,
    hy, obs_withErr]

/-! ## Theorems about the connection parameter sets -/

/-- A configuration with a non-PCM audio encoding. -/
def opusConfig : ModelConfig :=
  { appId := "app", accessKeyId := "ak", accessKeySecret := "sk",
    defaultLang := none, audioEncode := some "opus-wb", sampleRate := none }

/-- Counterexample to C9: the live-capture variant's `connectWebSocket`
includes `samplerate` unconditionally — here with the `opus-wb` encoding —
so "the parameter set contains no samplerate key for non-PCM encodings" fails
for that session kind. -/
theorem claim_C9_counterexample :
    effectiveAudioEncode opusConfig ≠ "pcm_s16le" ∧
    "samplerate" ∈ (liveSessionParams opusConfig "u" "t").map Prod.fst :=
  ⟨by decide, by decide⟩

/-- C9 amended: in the batch session (`streamIflytekRealtime`) the
`samplerate` parameter is present iff the effective encoding is `pcm_s16le`;
the live-capture variant sends `samplerate` for every configuration. -/
theorem claim_C9_amended (c : ModelConfig) (u t : String) :
    ("samplerate" ∈ (streamSessionParams c u t).map Prod.fst ↔
      effectiveAudioEncode c = "pcm_s16le") ∧
    "samplerate" ∈ (liveSessionParams c u t).map Prod.fst := by
  constructor
  · constructor
    · intro hmem
      by_cases h : effectiveAudioEncode c = "pcm_s16le"
      · exact h
      · exfalso
        unfold streamSessionParams at hmem
        rw [if_neg h] at hmem
        simp at hmem
    · intro h
      unfold streamSessionParams
      rw [if_pos h]
      simp
  · simp [liveSessionParams]

/-! ## Theorems about parse robustness (the two `parseResultText` variants) -/

/-- Is a JavaScript value iterable (and indexable) as a list? -/
def jsListLike (v : JSValue) : Bool :=
  match v with
  | .arr _ => true
  | .str _ => true
  | _ => false

/-- A payload whose `rt` level is a number: truthy, non-nullish and
non-iterable. -/
def nonIterablePayload : JSValue :=
  .obj [("cn", .obj [("st", .obj [("rt", .num 5)])])]

/-- Counterexample to C10: on a payload whose `rt` level is the number 5 the
live variant's `parseResultText` (`for...of` loops) throws a `TypeError`
instead of returning a string; the batch variant's indexed loops return `""`
on the same input. -/
theorem claim_C10_counterexample :
    parseResultTextLive nonIterablePayload = .error "TypeError: value is not iterable" ∧
    parseResultText nonIterablePayload = "" :=
  ⟨rfl, rfl⟩

theorem jsIterate_nullish_elems (v : JSValue) (l : List JSValue)
    (h : jsIterate (jsNullish v (.arr [])) = some l) : jsElems v = l := by
  cases v <;> simp [jsIterate, jsNullish, jsElems] at h ⊢ <;> exact h

theorem liveWordTexts_ok (w : JSValue) (ts : List String)
    (h : liveWordTexts w = .ok ts) : wordTexts w = ts := by
  unfold liveWordTexts at h
  rcases hit : jsIterate (jsNullish (jsGet w "cw") (.arr [])) with _ | cands
  · rw [hit] at h
    cases h
  · rw [hit] at h
    cases h
    unfold wordTexts
    rw [jsIterate_nullish_elems _ _ hit]

theorem foldl_texts_ok (f : JSValue → Except String (List String))
    (g : JSValue → List String) (hfg : ∀ w ts, f w = .ok ts → g w = ts) :
    ∀ (ws : List JSValue) (acc out : List String),
      ws.foldlM (fun acc w => do
        let ts ← f w
        pure (acc ++ ts)) acc = .ok out →
      out = acc ++ ws.flatMap g := by
  intro ws
  induction ws with
  | nil =>
      intro acc out h
      cases h
      simp
  | cons w rest ih =>
      intro acc out h
      rw [List.foldlM_cons] at h
      rcases hf : f w with e | ts
      · rw [show (do
            let ts ← f w
            pure (acc ++ ts) : Except String (List String)) = .error e by rw [hf]; rfl] at h
        cases h
      · rw [show (do
            let ts ← f w
            pure (acc ++ ts) : Except String (List String)) = .ok (acc ++ ts) by rw [hf]; rfl] at h
        rw [ih (acc ++ ts) out h, List.flatMap_cons, hfg w ts hf, List.append_assoc]

theorem liveSegTexts_ok (seg : JSValue) (ts : List String)
    (h : liveSegTexts seg = .ok ts) : segTexts seg = ts := by
  unfold liveSegTexts at h
  rcases hit : jsIterate (jsNullish (jsGet seg "ws") (.arr [])) with _ | words
  · rw [hit] at h
    cases h
  · rw [hit] at h
    have := foldl_texts_ok liveWordTexts wordTexts liveWordTexts_ok words [] ts h
    unfold segTexts
    rw [jsIterate_nullish_elems _ _ hit, this, List.nil_append]

/-- C10 amended: the batch variant's `parseResultText` is total — on every
payload whose `cn→st→rt` path is missing or not list-like it returns the
empty string — and it agrees with the live variant's `parseResultText`
whenever the latter returns instead of throwing; the live variant, however,
throws a `TypeError` on truthy non-iterable levels (its `onmessage` caller
catches the exception and drops the frame). -/
theorem claim_C10_amended :
    (∀ p : JSValue, jsListLike (jsGet (jsGet (jsGet p "cn") "st") "rt") = false →
      parseResultText p = "") ∧
    (∀ (p : JSValue) (out : String), parseResultTextLive p = .ok out →
      parseResultText p = out) := by
  constructor
  · intro p h
    unfold parseResultText
    rcases hv : jsGet (jsGet (jsGet p "cn") "st") "rt" <;>
      first
        | rfl
        | (rw [hv] at h; simp [jsListLike] at h)
  · intro p out h
    unfold parseResultTextLive at h
    split at h
    · rename_i segs hit
      rcases hps : segs.foldlM (fun acc seg => do
          let ts ← liveSegTexts seg
          pure (acc ++ ts)) ([] : List String) with e | parts
      · rw [hps] at h
        cases h
      · rw [hps] at h
        cases h
        have hparts := foldl_texts_ok liveSegTexts segTexts liveSegTexts_ok segs [] parts hps
        unfold parseResultText
        rw [jsIterate_nullish_elems _ _ hit, hparts, List.nil_append]
    · cases h

/-- Witness for the amended C10: a payload whose `cn` is a number yields the
empty string, and on a fully list-like payload the two variants agree. -/
theorem claim_C10_amended_witness :
    parseResultText (JSValue.obj [("cn", JSValue.num 3)]) = "" ∧
    parseResultText twoCandPayload = "ab" :=
  ⟨claim_C10_amended.1 (JSValue.obj [("cn", JSValue.num 3)]) rfl,
   claim_C10_amended.2 twoCandPayload "ab" rfl⟩
